import Mathlib

/-!
Verification of the Convo_IVR call-processing pipeline.

The Python sources under `app/` are shallowly embedded as executable Lean
definitions: dictionaries become association lists, `datetime.utcnow()`
becomes an abstract clock `Nat → String` together with a tick counter, and
every `try/except` fallback chain becomes a case split on an environment
record describing which optional collaborator is importable, failing, or
returning a value.  Theorems about the embedding settle the frozen claims.
-/

namespace ConvoIVR

/-! ## Association-list dictionaries (Python `dict` semantics) -/

/-- Lookup of a key in an association list, mirroring `d.get(k)`:
the first binding wins (Python dicts have unique keys). -/
def dget {K V : Type} [DecidableEq K] : List (K × V) → K → Option V
  | [], _ => none
  | (k2, v) :: t, k => if k2 = k then some v else dget t k

/-- Store a key/value binding, mirroring `d[k] = v`: replaces the first
binding of `k` in place, or appends a new binding at the end. -/
def dset {K V : Type} [DecidableEq K] : List (K × V) → K → V → List (K × V)
  | [], k, v => [(k, v)]
  | (k2, v2) :: t, k, v => if k2 = k then (k, v) :: t else (k2, v2) :: dset t k v

/-- Shallow merge, mirroring Python `d.update(p)`: every binding of `p` is
stored into `d`, in order. -/
def dupdate {K V : Type} [DecidableEq K] (d p : List (K × V)) : List (K × V) :=
  p.foldl (fun acc kv => dset acc kv.1 kv.2) d

/-! ## String helpers used by the sources -/

/-- Truthiness of an optional string, mirroring Python `if s:` on a value
that is either `None` or a `str`. -/
def truthyS : Option String → Bool
  | some s => !(s == "")
  | none => false

/-- ASCII lower-casing of one character, mirroring `str.lower()` on the
ASCII range used by the keyword tables. -/
def lowerChar (c : Char) : Char :=
  if c.toNat ≥ 65 ∧ c.toNat ≤ 90 then Char.ofNat (c.toNat + 32) else c

/-- Lower-case a whole string, mirroring `text.lower()`. -/
def strLower (s : String) : String := String.mk (s.data.map lowerChar)

/-- Boolean test for `pat` being a leading segment of `hay`. -/
def isPrefixL : List Char → List Char → Bool
  | [], _ => true
  | _ :: _, [] => false
  | a :: as, b :: bs => a == b && isPrefixL as bs

/-- Boolean substring containment on character lists. -/
def containsL : List Char → List Char → Bool
  | hay, pat =>
    match hay with
    | [] => pat.isEmpty
    | _ :: t => isPrefixL pat hay || containsL t pat

/-- Substring test mirroring Python `pat in hay`. -/
def strContains (hay pat : String) : Bool := containsL hay.data pat.data

/-- Byte-wise lexicographic comparison on character lists. -/
def leL : List Char → List Char → Bool
  | [], _ => true
  | _ :: _, [] => false
  | a :: as, b :: bs =>
    if a.toNat < b.toNat then true
    else if b.toNat < a.toNat then false
    else leL as bs

/-- Lexicographic order on strings, mirroring SQL / Python comparison of
ISO-8601 timestamp strings. -/
def strLe (a b : String) : Bool := leL a.data b.data

/-! ## Flow engine (`app/core/flow_engine.py`) -/

/-- One node of a stored flow.  Every field mirrors a `node.get(...)` access
in `FlowEngine.run_flow`: a missing dictionary key is `none`. -/
structure FlowNode where
  id : Option String
  type : Option String
  text : Option String
  intent : Option String
  reply : Option String
  escalate : Option Bool
deriving DecidableEq

/-- A stored flow; `flow.get("nodes", []) or []` makes a missing or empty
node list equivalent to `[]`. -/
structure Flow where
  nodes : List FlowNode
deriving DecidableEq

/-- Result dictionary of `FlowEngine.run_flow`: both keys are always
present; `reply` may be `None`. -/
structure FlowResult where
  reply : Option String
  escalate : Bool
deriving DecidableEq

/-- Embedding of `FlowEngine.run_flow(flow, intent, text)`.  The `text`
argument is unused by the source, so it is dropped here.  The intent scan
runs only when the given intent is truthy, and a node matches only when its
own `intent` value is truthy and equal to the given intent. -/
def runFlow (flow : Flow) (intent : Option String) : FlowResult :=
  let nodes := flow.nodes
  match (if truthyS intent then
          nodes.find? (fun n => truthyS n.intent && n.intent == intent)
        else none) with
  | some n => ⟨n.reply, n.escalate.getD false⟩
  | none =>
    match nodes.find?
        (fun n => n.id == some "start" && (n.type == some "ask" || n.type == some "say")) with
    | some n => ⟨n.text, false⟩
    | none => ⟨none, false⟩

/-- Modelled from the spec wording of claim C3: the first node whose
intent-match key equals the given intent, with no truthiness condition on
either side (a node must have a key for it to "equal" something, hence the
`isSome` guard). -/
def firstIntentMatchClaim (intent : Option String) : List FlowNode → Option FlowNode
  | [] => none
  | n :: t =>
    if n.intent.isSome ∧ n.intent = intent then some n
    else firstIntentMatchClaim intent t

/-- First node whose (necessarily non-empty) intent key equals the
non-empty given intent; used by the amended reading of claim C3. -/
def firstIntentMatch (i : String) : List FlowNode → Option FlowNode
  | [] => none
  | n :: t => if n.intent = some i then some n else firstIntentMatch i t

/-- First node with identifier `start` and a prompt-bearing type. -/
def firstStart : List FlowNode → Option FlowNode
  | [] => none
  | n :: t =>
    if n.id = some "start" ∧ (n.type = some "ask" ∨ n.type = some "say") then some n
    else firstStart t

/-- Shared fallback of both spec-side resolvers: prompt text of the first
`start` node, else an empty reply; escalate is false either way. -/
def startFallback (nodes : List FlowNode) : FlowResult :=
  match firstStart nodes with
  | some n => ⟨n.text, false⟩
  | none => ⟨none, false⟩

/-- Resolution as claim C3 states it: first node whose intent key equals the
given intent, else the `start` fallback. -/
def resolveClaim (flow : Flow) (intent : Option String) : FlowResult :=
  match firstIntentMatchClaim intent flow.nodes with
  | some n => ⟨n.reply, n.escalate.getD false⟩
  | none => startFallback flow.nodes

/-- Resolution as claim C3 must be amended: the intent scan happens only for
a non-empty given intent, and only nodes with a non-empty intent key can
match (Python truthiness); otherwise the `start` fallback applies. -/
def resolveAmended (flow : Flow) (intent : Option String) : FlowResult :=
  match intent with
  | some i =>
    if i = "" then startFallback flow.nodes
    else
      match firstIntentMatch i flow.nodes with
      | some n => ⟨n.reply, n.escalate.getD false⟩
      | none => startFallback flow.nodes
  | none => startFallback flow.nodes

/-! ## Responder fallbacks (`app/core/llm_client.py`, orchestrator step 2) -/

/-- Result dictionary of a Responder call as consumed by the orchestrator:
`intent` via `get("intent")`, `reply` via `get("reply", "")`, `escalate` via
`bool(get("escalate", False))`. -/
structure LLMRes where
  intent : Option String
  reply : Option String
  escalate : Option Bool
deriving DecidableEq

/-- Embedding of `_rule_based_response` in `app/core/llm_client.py`: the
ordered, case-insensitive keyword rule table used when no Responder backend
is available. -/
def ruleBasedResponse (text : String) : LLMRes :=
  let t := strLower text
  if strContains t "balance" || strContains t "account" then
    ⟨some "account_balance", some "Your account balance is â‚¹3,420.", none⟩
  else if strContains t "payment" || strContains t "bill" then
    ⟨some "payments", some "You can make payments via the web portal. Would you like a link?", none⟩
  else if strContains t "agent" || strContains t "human" || strContains t "representative" then
    ⟨some "connect_agent", some "Connecting you to an agent.", some true⟩
  else if strContains t "hello" || strContains t "hi" then
    ⟨some "greeting", some "Hello! How can I help you today?", none⟩
  else
    ⟨some "unknown", some "Sorry, I didn't understand that. Could you repeat?", none⟩

/-- Embedding of the orchestrator's inline fallback (orchestrator.py lines
163-170), used when no Responder client could be constructed at all.  Note
it is a smaller table than `ruleBasedResponse`. -/
def orchFallback (asrText : String) : LLMRes :=
  let text := strLower asrText
  if strContains text "balance" then
    ⟨some "account_balance", some "Your balance is $42 (fallback).", none⟩
  else if strContains text "agent" || strContains text "human" || strContains text "representative" then
    ⟨some "connect_agent", some "Connecting you to an agent.", some true⟩
  else
    ⟨some "unknown", some "I didn't get that. Can you repeat?", none⟩

/-- Modelled from the spec wording of claim C4: the intent selected by the
documented keyword rule table (first match wins, case-insensitive substring
test). -/
def claimIntent (text : String) : String :=
  let t := strLower text
  if strContains t "balance" || strContains t "account" then "account_balance"
  else if strContains t "payment" || strContains t "bill" then "payments"
  else if strContains t "agent" || strContains t "human" || strContains t "representative" then
    "connect_agent"
  else if strContains t "hello" || strContains t "hi" then "greeting"
  else "unknown"

/-- Intent selected by the reduced rule table the orchestrator's inline
fallback actually implements. -/
def reducedIntent (text : String) : String :=
  let t := strLower text
  if strContains t "balance" then "account_balance"
  else if strContains t "agent" || strContains t "human" || strContains t "representative" then
    "connect_agent"
  else "unknown"

/-! ## Transcript log (`app/storage/transcripts_store.py`) -/

/-- One transcript entry dictionary as built by `_save_transcript_entry`. -/
structure TEntry where
  call_id : Option String
  timestamp : String
  text : String
  source : String
deriving DecidableEq

/-- One stored row of the `transcripts` table (`save_transcript` always adds
a `created_at` column). -/
structure TRow where
  call_id : Option String
  timestamp : String
  text : String
  source : String
  created_at : String
deriving DecidableEq

/-- Insert a row into a list kept sorted by descending timestamp. -/
def insertDesc (r : TRow) : List TRow → List TRow
  | [] => [r]
  | x :: t =>
    if strLe x.timestamp r.timestamp then r :: x :: t
    else x :: insertDesc r t

/-- Sort rows by descending timestamp, mirroring
`order_by(transcripts.c.timestamp.desc())`. -/
def sortDesc (l : List TRow) : List TRow := l.foldr insertDesc []

/-- A list is ordered newest-first when every later element's timestamp is
lexicographically at most every earlier one's. -/
def SortedDescBy (l : List TRow) : Prop :=
  l.Pairwise (fun a b => strLe b.timestamp a.timestamp = true)

/-- Embedding of `query_transcripts`: optional call-identifier equality
filter, optional inclusive lexicographic timestamp bounds (each applied only
when the argument is truthy), then descending sort and `limit`. -/
def queryTranscripts (db : List TRow) (callId fromTs toTs : Option String)
    (limit : Nat) : List TRow :=
  let q0 := if truthyS callId then db.filter (fun r => r.call_id == callId) else db
  let q1 :=
    match fromTs with
    | some f => if f = "" then q0 else q0.filter (fun r => strLe f r.timestamp)
    | none => q0
  let q2 :=
    match toTs with
    | some t => if t = "" then q1 else q1.filter (fun r => strLe r.timestamp t)
    | none => q1
  (sortDesc q2).take limit

/-! ## Session store (`app/state/session_store.py`, in-memory backend) -/

/-- Embedding of `update_session(call_id, patch)` on the in-memory backend:
fetch the session (empty dict if absent), shallow-merge the patch into it,
store it back, and return the merged record together with the new store. -/
def update_session {K V : Type} [DecidableEq K] (store : List (K × List (String × V)))
    (callId : K) (patch : List (String × V)) :
    (List (String × V)) × List (K × List (String × V)) :=
  let session := (dget store callId).getD []
  let merged := dupdate session patch
  (merged, dset store callId merged)

/-! ## Orchestrator (`app/core/orchestrator.py`) -/

/-- Hand-off payload returned by `escalate_to_agent`, or substituted by the
orchestrator when no bridge is available. -/
structure AgentPayload where
  webrtc_url : Option String
  note : String
deriving DecidableEq

/-- Value stored in a session dictionary: the session fields are strings,
`None`, the escalation payload, or the embedded transcript list. -/
inductive Val where
  | str : String → Val
  | null : Val
  | agentV : AgentPayload → Val
  | entriesV : List TEntry → Val
deriving DecidableEq

/-- A session record is a string-keyed dictionary of values. -/
abbrev SDict := List (String × Val)

/-- Optional string to stored value (`None` becomes `null`). -/
def optVal : Option String → Val
  | some s => Val.str s
  | none => Val.null

/-- Optional escalation payload to stored value. -/
def agentVal : Option AgentPayload → Val
  | some a => Val.agentV a
  | none => Val.null

/-- The mutable stores the pipeline can reach: the session store's
in-memory dictionaries, the transcripts table, and the webhook module's own
in-memory session fallback. -/
structure World where
  sessions : List (Option String × SDict)
  dbTranscripts : List TRow
  memTranscripts : List (Option String × List TEntry)
  webhookSessions : List (Option String × SDict)
deriving DecidableEq

/-- Outcome of one optional provider adapter at its call site: the client
could not be constructed at all, the call raised, or it returned a value. -/
inductive AdapterOutcome (α : Type) where
  | unavailable
  | fails
  | ok (a : α)
deriving DecidableEq

/-- Outcome of the escalation bridge import/call: `escalate_to_agent` itself
is deterministic, so a successful call carries no data. -/
inductive BridgeOutcome where
  | unavailable
  | fails
  | ok
deriving DecidableEq

/-- Environment of one `process_call` run: which collaborator is importable,
failing or returning which value.  Every `try/except` in the source
corresponds to one field. -/
structure Env where
  asr : AdapterOutcome String
  llm : AdapterOutcome LLMRes
  flowEngineAvailable : Bool
  flowsStore : Option (List Flow)
  apiFlows : Option (List Flow)
  flowStepFails : Bool
  tts : AdapterOutcome (Option String)
  bridge : BridgeOutcome
  transcriptsStoreOk : Bool
  sessionAppendOk : Bool
  sessionUpdateOk : Bool
  webhookMemOk : Bool
  mediaBaseUrl : String
deriving DecidableEq

/-- Webhook payload dictionary handed to `process_call` (`payload.get` may
find no call identifier). -/
structure Payload where
  call_id : Option String
  fromNumber : Option String
  toNumber : Option String
  media_url : Option String
  direction : Option String
deriving DecidableEq

/-- Final session patch written by step 6 of `process_call`. -/
structure SessionPatch where
  status : String
  last_intent : Option String
  last_reply : Option String
  media_out : Option String
  agent : Option AgentPayload
  last_update : String
deriving DecidableEq

/-- The patch as the dictionary literal of orchestrator.py lines 224-231. -/
def patchToDict (p : SessionPatch) : SDict :=
  [("status", Val.str p.status),
   ("last_intent", optVal p.last_intent),
   ("last_reply", optVal p.last_reply),
   ("media_out", optVal p.media_out),
   ("agent", agentVal p.agent),
   ("last_update", Val.str p.last_update)]

/-- Where a transcript entry ended up. -/
inductive SaveDest where
  | store
  | sessionStore
  | dropped
deriving DecidableEq

/-- Where the final session patch ended up. -/
inductive PatchDest where
  | sessionStore
  | webhookMem
  | dropped
deriving DecidableEq

/-- Chronological log of the observable operations of one pipeline run. -/
inductive Event where
  | savedTranscript : TEntry → SaveDest → Event
  | flowRan : Flow → FlowResult → Event
  | flowError : Event
  | patched : Option String → SessionPatch → PatchDest → Event
deriving DecidableEq

/-- Terminal summary dictionary returned by `process_call`. -/
structure Summary where
  call_id : Option String
  intent : Option String
  reply : Option String
  media_out : Option String
  escalated : Bool
  agent : Option AgentPayload
deriving DecidableEq

/-- Everything one run produces: the summary, the final stores, the event
log and the next clock tick. -/
structure RunOut where
  summary : Summary
  world : World
  events : List Event
  patch : SessionPatch
  nextTick : Nat
deriving DecidableEq

/-- Transcript text produced by step 1 for each ASR outcome (the two stub
strings are the fallbacks of orchestrator.py lines 148 and 150). -/
def asrTextOf (env : Env) : String :=
  match env.asr with
  | .unavailable => "stubbed transcript (no ASR client available)"
  | .fails => "stubbed transcript: could not run ASR"
  | .ok t => t

/-- Responder result of step 2 for each LLM outcome: inline keyword fallback
when no client exists, fixed apology when the call raised. -/
def llmResOf (env : Env) : LLMRes :=
  match env.llm with
  | .unavailable => orchFallback (asrTextOf env)
  | .fails => ⟨some "unknown", some "Sorry, I couldn't process that right now.", none⟩
  | .ok r => r

/-- Embedding of `_maybe_get_flow_for_call`: first flow of the flows store,
else first flow of the API module's in-memory store, else nothing.  The
function never raises (both probes are inside `try/except`). -/
def maybeGetFlow (env : Env) : Option Flow :=
  match env.flowsStore with
  | some flows => flows.head?
  | none =>
    match env.apiFlows with
    | some flows => flows.head?
    | none => none

/-- Output of `_save_transcript_entry`: updated stores, logged event, the
entry as saved, and the next clock tick. -/
structure SaveOut where
  world : World
  event : Event
  entry : TEntry
  next : Nat
deriving DecidableEq

/-- Which destination `_save_transcript_entry`'s fallback chain reaches. -/
def saveDestOf (env : Env) : SaveDest :=
  if env.transcriptsStoreOk then .store
  else if env.sessionAppendOk then .sessionStore
  else .dropped

/-- The entry as finally saved: `save_transcript` replaces a falsy
timestamp with a fresh one (consuming one more clock tick); the other
destinations keep the entry as built. -/
def savedEntryOf (env : Env) (cid : Option String) (text source : String)
    (clock : Nat → String) (t : Nat) : TEntry :=
  if env.transcriptsStoreOk ∧ clock t = "" then ⟨cid, clock (t + 1), text, source⟩
  else ⟨cid, clock t, text, source⟩

/-- Clock tick after one `_save_transcript_entry` call: the entry timestamp
always consumes one tick; the `save_transcript` destination consumes one
more for `created_at`, plus one when it had to refill the timestamp. -/
def saveNext (env : Env) (clock : Nat → String) (t : Nat) : Nat :=
  if env.transcriptsStoreOk then (if clock t = "" then t + 3 else t + 2) else t + 1

/-- Embedding of `_save_transcript_entry`: build the entry with a fresh
timestamp, hand it to `transcripts_store.save_transcript` when that works
(which fills `created_at`, consuming clock ticks), else to
`session_store.append_transcript` (which appends in memory and mirrors the
entry into the session record), else drop it with a log line. -/
def saveTranscriptEntry (env : Env) (w : World) (cid : Option String)
    (text source : String) (clock : Nat → String) (t : Nat) : SaveOut :=
  let entry : TEntry := ⟨cid, clock t, text, source⟩
  let entry2 := savedEntryOf env cid text source clock t
  let wnew : World :=
    if env.transcriptsStoreOk then
      { w with dbTranscripts :=
          w.dbTranscripts
            ++ [⟨cid, entry2.timestamp, text, source, clock (saveNext env clock t - 1)⟩] }
    else if env.sessionAppendOk then
      let mem := (dget w.memTranscripts cid).getD []
      let mem2 := dset w.memTranscripts cid (mem ++ [entry])
      let sessions2 :=
        match dget w.sessions cid with
        | none =>
          dset w.sessions cid [("call_id", optVal cid), ("transcripts", Val.entriesV [entry])]
        | some session =>
          let prior :=
            match dget session "transcripts" with
            | some (Val.entriesV l) => l
            | _ => []
          dset w.sessions cid (dset session "transcripts" (Val.entriesV (prior ++ [entry])))
      { w with memTranscripts := mem2, sessions := sessions2 }
    else w
  ⟨wnew, .savedTranscript entry2 (saveDestOf env), entry2, saveNext env clock t⟩

/-- Output of step 3 (flow override). -/
structure FlowStageOut where
  reply : Option String
  escalate : Bool
  events : List Event
deriving DecidableEq

/-- Embedding of orchestrator step 3: when a flow engine exists and a flow
is found, `run_flow`'s result replaces both the reply (the `"reply"` key is
always present in the result, so the `.get` default never applies) and the
escalation flag; any error in the block leaves both values unchanged. -/
def flowStage (env : Env) (intent : Option String) (reply0 : String) (esc0 : Bool) :
    FlowStageOut :=
  if env.flowEngineAvailable then
    if env.flowStepFails then ⟨some reply0, esc0, [.flowError]⟩
    else
      match maybeGetFlow env with
      | some flow =>
        let fe := runFlow flow intent
        ⟨fe.reply, fe.escalate, [.flowRan flow fe]⟩
      | none => ⟨some reply0, esc0, []⟩
  else ⟨some reply0, esc0, []⟩

/-- Trailing-slash strip of `MEDIA_BASE_URL.rstrip("/")`. -/
def rstripSlash (s : String) : String :=
  String.mk ((s.data.reverse.dropWhile (fun c => c == '/')).reverse)

/-- Last path component, mirroring `pathlib.Path(p).name` for the relevant
shapes (empty and dot components are not path parts). -/
def fileName (s : String) : String :=
  (((s.split (fun c => c == '/')).filter (fun c => !(c == "") && !(c == "."))).getLast?).getD ""

/-- Media reference produced by step 4 for each TTS outcome: only a
successful synthesis with a truthy artifact path yields a composed URL. -/
def mediaOutOf (env : Env) : Option String :=
  match env.tts with
  | .ok (some path) =>
    if path = "" then none
    else some (rstripSlash env.mediaBaseUrl ++ "/" ++ fileName path)
  | _ => none

/-- Python string interpolation of an optional value (`None` renders as the
word `None`). -/
def pyRepr : Option String → String
  | some s => s
  | none => "None"

/-- Payload returned by `escalate_to_agent(call_id)`. -/
def bridgeOkPayload (cid : Option String) : AgentPayload :=
  ⟨some ("/agent?call_id=" ++ pyRepr cid), "placeholder (implement real WebRTC bridge)"⟩

/-- Substitute payload used when escalation was requested but the bridge
could not be imported or called. -/
def noBridgePayload : AgentPayload :=
  ⟨none, "escalation_requested_but_no_bridge"⟩

/-- Embedding of orchestrator step 5: a payload exists exactly when the
final escalation flag is set. -/
def agentPayloadOf (env : Env) (cid : Option String) (esc : Bool) : Option AgentPayload :=
  if esc then
    match env.bridge with
    | .ok => some (bridgeOkPayload cid)
    | _ => some noBridgePayload
  else none

/-- Output of `_update_session`. -/
structure PatchOut where
  world : World
  event : Event
deriving DecidableEq

/-- Which destination `_update_session`'s fallback chain reaches. -/
def patchDestOf (env : Env) : PatchDest :=
  if env.sessionUpdateOk then .sessionStore
  else if env.webhookMemOk then .webhookMem
  else .dropped

/-- Embedding of `_update_session`: session store patch when that works,
else shallow merge into the webhook module's in-memory sessions, else only a
log line. -/
def updateSessionW (env : Env) (w : World) (cid : Option String) (patch : SessionPatch) :
    PatchOut :=
  let wnew : World :=
    if env.sessionUpdateOk then
      { w with sessions := (update_session w.sessions cid (patchToDict patch)).2 }
    else if env.webhookMemOk then
      let s := (dget w.webhookSessions cid).getD []
      { w with webhookSessions := dset w.webhookSessions cid (dupdate s (patchToDict patch)) }
    else w
  ⟨wnew, .patched cid patch (patchDestOf env)⟩

/-- Embedding of `process_call`: the six pipeline steps in order.  The
function is total over every environment: each adapter or store failure is a
case of `Env`, never an error of the embedding. -/
def processCall (env : Env) (p : Payload) (w : World) (clock : Nat → String) (t0 : Nat) :
    RunOut :=
  let cid := p.call_id
  let s1 := saveTranscriptEntry env w cid (asrTextOf env) "asr" clock t0
  let lr := llmResOf env
  let s2 := saveTranscriptEntry env s1.world cid (lr.reply.getD "") "llm" clock s1.next
  let fs := flowStage env lr.intent (lr.reply.getD "") (lr.escalate.getD false)
  let patch : SessionPatch :=
    { status := if fs.escalate then "escalated" else "completed"
      last_intent := lr.intent
      last_reply := fs.reply
      media_out := mediaOutOf env
      agent := agentPayloadOf env cid fs.escalate
      last_update := clock s2.next }
  let u := updateSessionW env s2.world cid patch
  { summary :=
      ⟨cid, lr.intent, fs.reply, mediaOutOf env, fs.escalate, agentPayloadOf env cid fs.escalate⟩
    world := u.world
    events := s1.event :: s2.event :: (fs.events ++ [u.event])
    patch := patch
    nextTick := s2.next + 1 }

/-! ## Inbound call webhook (`app/api/webhooks.py`) -/

/-- Validated webhook body (`CallWebhook`): pydantic requires `call_id`. -/
structure InPayload where
  call_id : String
  fromNumber : Option String
  toNumber : Option String
  media_url : Option String
  direction : Option String
deriving DecidableEq

/-- Which background task the endpoint schedules. -/
inductive TaskKind where
  | orchestrator
  | stub
deriving DecidableEq

/-- Observable outcome of the endpoint: an HTTP error, or acceptance
carrying the created session record, whether it went through the session
store (`true`) or the in-memory fallback (`false`), and the scheduled task. -/
inductive InboundOut where
  | rejected (code : Nat) (detail : String)
  | accepted (status : String) (callId : String) (session : SDict)
      (viaStore : Bool) (task : TaskKind)
deriving DecidableEq

/-- The acceptance path of `inbound_call`: build the initial session record
with status `received`, save it, and schedule the pipeline run. -/
def inboundAccept (p : InPayload) (sessionStoreOk orchestratorAvailable : Bool)
    (clock : Nat → String) (t0 : Nat) : InboundOut :=
  let session : SDict :=
    [("call_id", Val.str p.call_id),
     ("from", optVal p.fromNumber),
     ("to", optVal p.toNumber),
     ("status", Val.str "received"),
     ("created_at", Val.str (clock t0)),
     ("last_update", Val.str (clock (t0 + 1))),
     ("transcripts", Val.entriesV []),
     ("last_intent", Val.null)]
  .accepted "accepted" p.call_id session sessionStoreOk
    (if orchestratorAvailable then .orchestrator else .stub)

/-- Embedding of `inbound_call`: the secret comparison runs only when the
configured secret is truthy AND the header is present; a mismatch raises
403, anything else falls through to acceptance. -/
def inboundCall (webhookSecret : Option String) (header : Option String)
    (p : InPayload) (sessionStoreOk orchestratorAvailable : Bool)
    (clock : Nat → String) (t0 : Nat) : InboundOut :=
  if truthyS webhookSecret && header.isSome then
    if header == webhookSecret then
      inboundAccept p sessionStoreOk orchestratorAvailable clock t0
    else .rejected 403 "Invalid webhook secret"
  else inboundAccept p sessionStoreOk orchestratorAvailable clock t0

/-! ## Concrete fixtures used by counterexamples and witnesses -/

/-- Empty stores at the start of a run. -/
def world0 : World := ⟨[], [], [], []⟩

/-- A constant (hence monotone) wall clock. -/
def clk0 : Nat → String := fun _ => "2024-01-01T00:00:00"

/-- Environment in which every optional collaborator is missing: no
adapters, no flow engine, no stores. -/
def envNone : Env :=
  ⟨.unavailable, .unavailable, false, none, none, false, .unavailable, .unavailable,
    false, false, false, false, "http://localhost:8000/media"⟩

/-- A typical inbound webhook payload dictionary. -/
def payload1 : Payload :=
  ⟨some "call-1", some "+15550001111", some "+15550002222", none, some "inbound"⟩

/-- A stored flow with no nodes at all: `run_flow` on it returns the empty
result `{reply: None, escalate: False}`. -/
def flowEmpty : Flow := ⟨[]⟩

/-- A flow whose only node carries an empty-string intent key. -/
def flowC3 : Flow := ⟨[⟨none, none, none, some "", some "R", none⟩]⟩

/-- Environment for the C2 counterexample: the Responder produced a
greeting reply, a flow engine exists, and the stored flow is `flowEmpty`. -/
def envC2 : Env :=
  { envNone with
      llm := .ok ⟨some "greeting", some "Hello! How can I help you today?", none⟩
      flowEngineAvailable := true
      flowsStore := some [flowEmpty] }

/-- Environment for the C4 counterexample: no Responder client at all, and
the transcriber heard the word `account`. -/
def envC4 : Env := { envNone with asr := .ok "my account" }

/-- Environment with a working session store, for the C1 witness. -/
def envStoreOk : Env := { envNone with sessionUpdateOk := true }

/-- Environment with a working transcripts store and a monotone-clock
pipeline, for the C9 witness. -/
def envTStore : Env := { envNone with transcriptsStoreOk := true }

/-- Environment in which the keyword fallback escalates (the caller asked
for an agent) and no bridge is importable, for the C7 witness. -/
def envEsc : Env :=
  { envNone with llm := .ok ⟨some "connect_agent", some "Connecting you to an agent.", some true⟩ }

/-- A webhook payload for the C6 witness. -/
def inPayload1 : InPayload :=
  ⟨"call-1", some "+15550001111", some "+15550002222", none, some "inbound"⟩

/-- A two-row transcript store for the C8 witness: one row inside the
spec's example window and one before it. -/
def dbW : List TRow :=
  [⟨some "call-1", "2024-01-01T10:00:00", "hello", "asr", "2024-01-01T10:00:00"⟩,
   ⟨some "call-1", "2023-12-31T10:00:00", "earlier", "llm", "2023-12-31T10:00:00"⟩]

/-! ## Theorems -/

theorem dget_dset_self {K V : Type} [DecidableEq K] (d : List (K × V)) (k : K) (v : V) :
    dget (dset d k v) k = some v := by
  induction d with
  | nil => simp [dset, dget]
  | cons hd t ih =>
    obtain ⟨k2, v2⟩ := hd
    by_cases h : k2 = k
    · simp [dset, dget, h]
    · simp [dset, dget, h, ih]

theorem dget_dset_ne {K V : Type} [DecidableEq K] (d : List (K × V)) (k j : K) (v : V)
    (h : k ≠ j) : dget (dset d k v) j = dget d j := by
  induction d with
  | nil => simp [dset, dget, h]
  | cons hd t ih =>
    obtain ⟨k2, v2⟩ := hd
    by_cases h2 : k2 = k
    · subst h2
      simp [dset, dget, h]
    · simp only [dset, if_neg h2]
      by_cases h3 : k2 = j
      · simp [dget, h3]
      · simp [dget, h3, ih]

theorem dget_eq_none_of_not_mem {K V : Type} [DecidableEq K] (p : List (K × V)) (k : K)
    (h : k ∉ p.map Prod.fst) : dget p k = none := by
  induction p with
  | nil => simp [dget]
  | cons hd t ih =>
    obtain ⟨k2, v2⟩ := hd
    simp only [List.map_cons, List.mem_cons] at h
    push_neg at h
    simp only [dget]
    rw [if_neg (fun hh => h.1 hh.symm), ih h.2]

theorem dget_dupdate {K V : Type} [DecidableEq K] (d p : List (K × V)) (k : K)
    (hnd : (p.map Prod.fst).Nodup) :
    dget (dupdate d p) k = match dget p k with | some v => some v | none => dget d k := by
  induction p generalizing d with
  | nil => simp [dupdate, dget]
  | cons hd t ih =>
    obtain ⟨k1, v1⟩ := hd
    simp only [List.map_cons, List.nodup_cons] at hnd
    have step : dupdate d ((k1, v1) :: t) = dupdate (dset d k1 v1) t := rfl
    rw [step, ih (dset d k1 v1) hnd.2]
    by_cases h : k1 = k
    · subst h
      have ht : dget t k1 = none := dget_eq_none_of_not_mem t k1 hnd.1
      simp [dget, ht, dget_dset_self]
    · simp only [dget, if_neg h]
      cases hgt : dget t k with
      | some v => rfl
      | none => simp [dget_dset_ne d k1 k v1 h]

theorem leL_total (a b : List Char) : leL a b = true ∨ leL b a = true := by
  induction a generalizing b with
  | nil => left; rfl
  | cons x xs ih =>
    cases b with
    | nil => right; rfl
    | cons y ys =>
      rcases Nat.lt_trichotomy x.toNat y.toNat with h | h | h
      · left; simp [leL, h]
      · have hxy : ¬ x.toNat < y.toNat := by omega
        have hyx : ¬ y.toNat < x.toNat := by omega
        rcases ih ys with h2 | h2
        · left; simp [leL, hxy, hyx, h2]
        · right; simp [leL, hxy, hyx, h2]
      · right; simp [leL, h]

theorem leL_trans (a b c : List Char) (h1 : leL a b = true) (h2 : leL b c = true) :
    leL a c = true := by
  induction a generalizing b c with
  | nil => rfl
  | cons x xs ih =>
    cases b with
    | nil => simp [leL] at h1
    | cons y ys =>
      cases c with
      | nil => simp [leL] at h2
      | cons z zs =>
        simp only [leL] at h1 h2 ⊢
        by_cases hxy : x.toNat < y.toNat
        · by_cases hyz : y.toNat < z.toNat
          · have : x.toNat < z.toNat := by omega
            simp [this]
          · by_cases hzy : z.toNat < y.toNat
            · simp [hyz, hzy] at h2
            · have : x.toNat < z.toNat := by omega
              simp [this]
        · by_cases hyx : y.toNat < x.toNat
          · simp [hxy, hyx] at h1
          · by_cases hyz : y.toNat < z.toNat
            · have : x.toNat < z.toNat := by omega
              simp [this]
            · by_cases hzy : z.toNat < y.toNat
              · simp [hyz, hzy] at h2
              · have hxz : ¬ x.toNat < z.toNat := by omega
                have hzx : ¬ z.toNat < x.toNat := by omega
                simp only [hxy, hyx, if_neg, ite_self] at h1
                simp only [hyz, hzy, if_neg, ite_self] at h2
                simp only [hxz, hzx, if_neg, ite_self]
                simp at h1 h2
                exact ih ys zs h1 h2

theorem strLe_total (a b : String) : strLe a b = true ∨ strLe b a = true :=
  leL_total a.data b.data

theorem strLe_trans (a b c : String) (h1 : strLe a b = true) (h2 : strLe b c = true) :
    strLe a c = true :=
  leL_trans a.data b.data c.data h1 h2

theorem mem_insertDesc (r y : TRow) (l : List TRow) :
    y ∈ insertDesc r l ↔ y = r ∨ y ∈ l := by
  induction l with
  | nil => simp [insertDesc]
  | cons x t ih =>
    simp only [insertDesc]
    split
    · simp [List.mem_cons]
    · simp [List.mem_cons, ih]
      tauto

theorem sorted_insertDesc (r : TRow) (l : List TRow) (h : SortedDescBy l) :
    SortedDescBy (insertDesc r l) := by
  induction l with
  | nil => simp [insertDesc, SortedDescBy]
  | cons x t ih =>
    simp only [SortedDescBy, List.pairwise_cons] at h
    simp only [insertDesc]
    split
    · rename_i hxr
      refine List.Pairwise.cons ?_ (List.Pairwise.cons h.1 h.2)
      intro y hy
      rcases List.mem_cons.mp hy with hy | hy
      · subst hy; exact hxr
      · exact strLe_trans _ _ _ (h.1 y hy) hxr
    · rename_i hxr
      refine List.Pairwise.cons ?_ (ih h.2)
      intro y hy
      rcases (mem_insertDesc r y t).mp hy with hy | hy
      · subst hy
        rcases strLe_total x.timestamp y.timestamp with hh | hh
        · exact absurd hh hxr
        · exact hh
      · exact h.1 y hy

theorem sorted_sortDesc (l : List TRow) : SortedDescBy (sortDesc l) := by
  induction l with
  | nil => simp [sortDesc, SortedDescBy]
  | cons x t ih => exact sorted_insertDesc x (sortDesc t) ih

theorem mem_sortDesc (l : List TRow) (y : TRow) : y ∈ sortDesc l ↔ y ∈ l := by
  induction l with
  | nil => simp [sortDesc]
  | cons x t ih =>
    simp only [sortDesc] at ih ⊢
    rw [List.foldr_cons, mem_insertDesc]
    simp [ih]

theorem patchToDict_keys (p : SessionPatch) :
    (patchToDict p).map Prod.fst
      = ["status", "last_intent", "last_reply", "media_out", "agent", "last_update"] := rfl

theorem savedEntryOf_source (env : Env) (cid : Option String) (text source : String)
    (clock : Nat → String) (t : Nat) :
    (savedEntryOf env cid text source clock t).source = source := by
  unfold savedEntryOf; split <;> rfl

theorem savedEntryOf_text (env : Env) (cid : Option String) (text source : String)
    (clock : Nat → String) (t : Nat) :
    (savedEntryOf env cid text source clock t).text = text := by
  unfold savedEntryOf; split <;> rfl

theorem savedEntryOf_timestamp (env : Env) (cid : Option String) (text source : String)
    (clock : Nat → String) (t : Nat) :
    ∃ i, t ≤ i ∧ i < saveNext env clock t
      ∧ (savedEntryOf env cid text source clock t).timestamp = clock i := by
  by_cases hs : env.transcriptsStoreOk = true
  · by_cases hc : clock t = ""
    · exact ⟨t + 1, by omega, by simp [saveNext, hs, hc], by simp [savedEntryOf, hs, hc]⟩
    · exact ⟨t, by omega, by simp [saveNext, hs, hc], by simp [savedEntryOf, hs, hc]⟩
  · exact ⟨t, by omega, by simp [saveNext, hs], by simp [savedEntryOf, hs]⟩

theorem saveDestOf_not_dropped (env : Env)
    (h : env.transcriptsStoreOk = true ∨ env.sessionAppendOk = true) :
    saveDestOf env ≠ SaveDest.dropped := by
  unfold saveDestOf
  rcases h with h | h <;> split_ifs <;> simp_all

theorem find?_start_eq (nodes : List FlowNode) :
    nodes.find? (fun n => n.id == some "start" && (n.type == some "ask" || n.type == some "say"))
      = firstStart nodes := by
  induction nodes with
  | nil => rfl
  | cons n t ih =>
    rw [List.find?_cons, firstStart]
    by_cases h : n.id = some "start" ∧ (n.type = some "ask" ∨ n.type = some "say")
    · have hb : (n.id == some "start" && (n.type == some "ask" || n.type == some "say"))
          = true := by
        simp [h.1]
        rcases h.2 with h2 | h2 <;> simp [h2]
      rw [hb, if_pos h]
    · have hb : (n.id == some "start" && (n.type == some "ask" || n.type == some "say"))
          = false := by
        by_cases h1 : n.id = some "start"
        · have h2 : ¬(n.type = some "ask" ∨ n.type = some "say") := fun hh => h ⟨h1, hh⟩
          push_neg at h2
          simp [h1, h2.1, h2.2]
        · simp [h1]
      rw [hb, if_neg h]
      exact ih

theorem find?_intent_eq (nodes : List FlowNode) (i : String) (hi : i ≠ "") :
    nodes.find? (fun n => truthyS n.intent && n.intent == some i) = firstIntentMatch i nodes := by
  induction nodes with
  | nil => rfl
  | cons n t ih =>
    rw [List.find?_cons, firstIntentMatch]
    by_cases h : n.intent = some i
    · have hb : (truthyS n.intent && n.intent == some i) = true := by
        simp [h, truthyS, hi]
      rw [hb, if_pos h]
    · have hb : (truthyS n.intent && n.intent == some i) = false := by
        simp [h]
      rw [hb, if_neg h]
      exact ih

/-! ## Claim theorems -/

/-- Claim C1, counterexample: with every collaborator missing and no
escalation, the final session patch written by `process_call` carries status
`completed`, not the `answered` the claim states. -/
theorem c1_counterexample :
    (processCall envNone payload1 world0 clk0 0).summary.escalated = false
    ∧ (processCall envNone payload1 world0 clk0 0).patch.status = "completed"
    ∧ (processCall envNone payload1 world0 clk0 0).patch.status ≠ "answered" := by
  decide

/-- Claim C1, amended: the final session patch sets status to `escalated`
when the final escalation flag is true and to `completed` otherwise, so the
status is never `received`; when the session store accepts the patch, the
stored session's status field equals the patch's status. -/
theorem c1_final_status (env : Env) (p : Payload) (w : World) (clock : Nat → String)
    (t0 : Nat) (h : env.sessionUpdateOk = true) :
    (processCall env p w clock t0).patch.status
        = (if (processCall env p w clock t0).summary.escalated then "escalated" else "completed")
    ∧ (processCall env p w clock t0).patch.status ≠ "received"
    ∧ dget ((dget (processCall env p w clock t0).world.sessions p.call_id).getD []) "status"
        = some (Val.str (processCall env p w clock t0).patch.status) := by
  refine ⟨rfl, ?_, ?_⟩
  · have hst : (processCall env p w clock t0).patch.status
        = (if (processCall env p w clock t0).summary.escalated then "escalated"
           else "completed") := rfl
    rw [hst]
    cases (processCall env p w clock t0).summary.escalated <;> simp
  · have hw : (processCall env p w clock t0).world
        = (updateSessionW env (saveTranscriptEntry env (saveTranscriptEntry env w p.call_id
            (asrTextOf env) "asr" clock t0).world p.call_id ((llmResOf env).reply.getD "") "llm"
            clock (saveTranscriptEntry env w p.call_id (asrTextOf env) "asr" clock t0).next).world
            p.call_id (processCall env p w clock t0).patch).world := rfl
    rw [hw]
    simp only [updateSessionW, h, if_true]
    rw [update_session]
    simp only []
    rw [dget_dset_self]
    simp only [Option.getD_some]
    rw [dget_dupdate]
    · rfl
    · rw [patchToDict_keys]
      decide

/-- Claim C1, witness: a run against a working session store ends with a
status that is not `received`. -/
theorem c1_witness :
    (processCall envStoreOk payload1 world0 clk0 0).patch.status ≠ "received" :=
  (c1_final_status envStoreOk payload1 world0 clk0 0 rfl).2.1

/-- Claim C2, counterexample: the Responder produced the greeting reply, the
resolver returned an empty reply, and the pipeline's final reply is that
empty reply — the pre-existing Responder reply is NOT left unchanged. -/
theorem c2_counterexample :
    (llmResOf envC2).reply = some "Hello! How can I help you today?"
    ∧ (runFlow flowEmpty (some "greeting")).reply = none
    ∧ (processCall envC2 payload1 world0 clk0 0).summary.reply = none
    ∧ (processCall envC2 payload1 world0 clk0 0).patch.last_reply = none := by
  decide

/-- Claim C2, amended: whenever the flow resolver runs, its reply always
overwrites the pipeline's reply text — even an empty or absent reply, since
the result dictionary always contains the reply key — and its escalation
decision always overwrites the escalation flag (no logical OR). -/
theorem c2_flow_override (env : Env) (p : Payload) (w : World) (clock : Nat → String)
    (t0 : Nat) (flow : Flow)
    (hfe : env.flowEngineAvailable = true) (hok : env.flowStepFails = false)
    (hflow : maybeGetFlow env = some flow) :
    (processCall env p w clock t0).summary.reply = (runFlow flow (llmResOf env).intent).reply
    ∧ (processCall env p w clock t0).summary.escalated
        = (runFlow flow (llmResOf env).intent).escalate
    ∧ (processCall env p w clock t0).patch.last_reply
        = (runFlow flow (llmResOf env).intent).reply := by
  simp [processCall, flowStage, hfe, hok, hflow]

/-- Claim C2, witness: the override theorem applied to the concrete
counterexample environment. -/
theorem c2_witness :
    (processCall envC2 payload1 world0 clk0 0).summary.reply
      = (runFlow flowEmpty (llmResOf envC2).intent).reply :=
  (c2_flow_override envC2 payload1 world0 clk0 0 flowEmpty rfl rfl rfl).1

/-- Claim C3, counterexample: on a flow whose only node carries an
empty-string intent key, `run_flow` called with the empty-string intent does
not return that node's reply (Python truthiness skips the scan), though the
claim's resolution rule selects it. -/
theorem c3_counterexample : runFlow flowC3 (some "") ≠ resolveClaim flowC3 (some "") := by
  decide

/-- Claim C3, amended: `run_flow` returns the reply and escalate flag of the
first node (in stored order) whose non-empty intent key equals the given
non-empty intent; with an absent or empty intent, or when no node matches,
it returns the prompt text of the first node with identifier `start` and
type `ask` or `say` with escalate false; if that does not exist either, it
returns an empty reply with escalate false. -/
theorem c3_resolution (flow : Flow) (intent : Option String) :
    runFlow flow intent = resolveAmended flow intent := by
  cases intent with
  | none =>
    simp only [runFlow, resolveAmended, truthyS, startFallback, find?_start_eq]
    rfl
  | some i =>
    by_cases hi : i = ""
    · subst hi
      simp [runFlow, resolveAmended, truthyS, startFallback, find?_start_eq]
    · have ht : truthyS (some i) = true := by simp [truthyS, hi]
      simp only [runFlow, resolveAmended, ht, if_true, if_neg hi, find?_intent_eq _ i hi]
      cases hm : firstIntentMatch i flow.nodes with
      | some n => rfl
      | none => simp [startFallback, find?_start_eq]

/-- Claim C4, counterexample: with no Responder configured at all the
orchestrator's inline fallback maps a text containing `account` to intent
`unknown`, while the claimed rule table maps it to `account_balance`, and the
pipeline indeed ends with intent `unknown`. -/
theorem c4_counterexample :
    (orchFallback "my account").intent = some "unknown"
    ∧ claimIntent "my account" = "account_balance"
    ∧ (processCall envC4 payload1 world0 clk0 0).summary.intent = some "unknown" := by
  decide

/-- Claim C4, amended: the LLM client's rule-based fallback (used when the
Responder backend is unavailable or fails) implements exactly the claimed
first-match-wins case-insensitive keyword table, escalating exactly on
`connect_agent`; the orchestrator's inline fallback (used when no Responder
client exists at all) implements only a reduced table: `balance` to
`account_balance`, `agent`/`human`/`representative` to `connect_agent` with
escalation, and everything else — including `account`, `payment`, `bill`,
`hello`, `hi` — to `unknown` with a repeat-please reply. -/
theorem c4_keyword_tables (s : String) :
    ((ruleBasedResponse s).intent = some (claimIntent s)
      ∧ ((ruleBasedResponse s).escalate.getD false = true ↔ claimIntent s = "connect_agent"))
    ∧ ((orchFallback s).intent = some (reducedIntent s)
      ∧ ((orchFallback s).escalate.getD false = true ↔ reducedIntent s = "connect_agent")) := by
  simp only [ruleBasedResponse, claimIntent, orchFallback, reducedIntent]
  split_ifs <;> simp_all

/-- Claim C5: for every environment — every combination of missing, failing
or succeeding Transcriber, Responder, Flow-Resolver, Synthesizer,
Escalation-Bridge and stores — `process_call` on a payload carrying a call
identifier completes, returns a terminal summary for that call, and its last
operation is writing the final session patch. -/
theorem c5_never_raises (env : Env) (p : Payload) (w : World) (clock : Nat → String)
    (t0 : Nat) (c : String) (h : p.call_id = some c) :
    (processCall env p w clock t0).summary.call_id = some c
    ∧ (processCall env p w clock t0).events.getLast?
        = some (.patched (some c) (processCall env p w clock t0).patch (patchDestOf env)) := by
  rw [← h]
  refine ⟨rfl, ?_⟩
  show ((_ :: _ :: (flowStage env (llmResOf env).intent ((llmResOf env).reply.getD "")
      ((llmResOf env).escalate.getD false)).events)
      ++ [Event.patched p.call_id (processCall env p w clock t0).patch (patchDestOf env)]).getLast?
      = _
  exact List.getLast?_concat _

/-- Claim C5, witness: the resilience theorem applied to the environment in
which every adapter and store is missing. -/
theorem c5_witness :
    (processCall envNone payload1 world0 clk0 0).summary.call_id = some "call-1" :=
  (c5_never_raises envNone payload1 world0 clk0 0 "call-1" rfl).1

/-- Claim C6: with a configured (truthy) webhook secret, the endpoint
returns 403 exactly when the header is present and differs from the secret;
a request without the header skips the comparison entirely and is accepted,
creating a `received` session and scheduling the pipeline. -/
theorem c6_secret_gate (s : String) (header : Option String) (p : InPayload)
    (sOk oAvail : Bool) (clock : Nat → String) (t0 : Nat) :
    (inboundCall (some s) header p sOk oAvail clock t0 = .rejected 403 "Invalid webhook secret"
      ↔ s ≠ "" ∧ ∃ h, header = some h ∧ h ≠ s)
    ∧ (header = none →
        ∃ sess, inboundCall (some s) header p sOk oAvail clock t0
            = .accepted "accepted" p.call_id sess sOk
                (if oAvail then .orchestrator else .stub)
          ∧ dget sess "status" = some (Val.str "received")) := by
  constructor
  · constructor
    · intro hr
      unfold inboundCall at hr
      by_cases hs : s = ""
      · simp [truthyS, hs, inboundAccept] at hr
      · refine ⟨hs, ?_⟩
        cases header with
        | none => simp [truthyS, inboundAccept] at hr
        | some h =>
          refine ⟨h, rfl, ?_⟩
          intro heq
          subst heq
          simp [truthyS, hs, inboundAccept] at hr
    · rintro ⟨hs, h, rfl, hne⟩
      unfold inboundCall
      have ht : truthyS (some s) = true := by simp [truthyS, hs]
      simp [ht, hne]
  · rintro rfl
    refine ⟨[("call_id", Val.str p.call_id), ("from", optVal p.fromNumber),
      ("to", optVal p.toNumber), ("status", Val.str "received"),
      ("created_at", Val.str (clock t0)), ("last_update", Val.str (clock (t0 + 1))),
      ("transcripts", Val.entriesV []), ("last_intent", Val.null)], ?_, ?_⟩
    · unfold inboundCall
      simp [inboundAccept]
    · simp [dget]

/-- Claim C6, witness: the secret gate theorem applied to a header-less
request against the default secret. -/
theorem c6_witness :
    ∃ sess, inboundCall (some "changeme") none inPayload1 true true clk0 0
        = .accepted "accepted" "call-1" sess true .orchestrator
      ∧ dget sess "status" = some (Val.str "received") :=
  (c6_secret_gate "changeme" none inPayload1 true true clk0 0).2 rfl

/-- Claim C7: the final session patch carries an escalation payload exactly
when the final escalation flag is true; with the flag set, a working bridge
yields the agent hand-off payload and a missing or failing bridge yields the
substitute payload noting that no bridge existed. -/
theorem c7_escalation_payload (env : Env) (p : Payload) (w : World) (clock : Nat → String)
    (t0 : Nat) :
    ((processCall env p w clock t0).patch.agent.isSome
        = (processCall env p w clock t0).summary.escalated)
    ∧ ((processCall env p w clock t0).summary.escalated = true → env.bridge = .ok →
        (processCall env p w clock t0).patch.agent = some (bridgeOkPayload p.call_id))
    ∧ ((processCall env p w clock t0).summary.escalated = true → env.bridge ≠ .ok →
        (processCall env p w clock t0).patch.agent = some noBridgePayload) := by
  have h1 : (processCall env p w clock t0).patch.agent
      = agentPayloadOf env p.call_id ((processCall env p w clock t0).summary.escalated) := rfl
  rw [h1]
  generalize (processCall env p w clock t0).summary.escalated = b
  cases b <;> cases hbr : env.bridge <;> simp [agentPayloadOf, hbr]

/-- Claim C7, witness: an escalating run with no bridge available ends with
the substitute payload attached. -/
theorem c7_witness :
    (processCall envEsc payload1 world0 clk0 0).patch.agent = some noBridgePayload :=
  (c7_escalation_payload envEsc payload1 world0 clk0 0).2.2 (by decide) (by decide)

/-- Claim C8: a transcript query with non-empty `fromTime` and `toTime`
bounds returns only rows inside the inclusive lexicographic window that
match the call filter when one is given, ordered newest-first, with at most
`limit` rows. -/
theorem c8_range_query (db : List TRow) (c : Option String) (f t : String)
    (hf : f ≠ "") (ht : t ≠ "") (limit : Nat) :
    (∀ r ∈ queryTranscripts db c (some f) (some t) limit,
        strLe f r.timestamp = true ∧ strLe r.timestamp t = true
        ∧ (truthyS c = true → r.call_id = c))
    ∧ SortedDescBy (queryTranscripts db c (some f) (some t) limit)
    ∧ (queryTranscripts db c (some f) (some t) limit).length ≤ limit := by
  unfold queryTranscripts
  simp only [if_neg hf, if_neg ht]
  refine ⟨?_, ?_, ?_⟩
  · intro r hr
    have h1 : r ∈ sortDesc (((if truthyS c then db.filter (fun r => r.call_id == c) else db).filter
        (fun r => strLe f r.timestamp)).filter (fun r => strLe r.timestamp t)) :=
      List.take_subset _ _ hr
    rw [mem_sortDesc] at h1
    rw [List.mem_filter] at h1
    obtain ⟨h2, hto⟩ := h1
    rw [List.mem_filter] at h2
    obtain ⟨h3, hfrom⟩ := h2
    refine ⟨hfrom, hto, ?_⟩
    intro hc
    rw [if_pos hc] at h3
    rw [List.mem_filter] at h3
    exact beq_iff_eq.mp h3.2
  · have hs := sorted_sortDesc (((if truthyS c then db.filter (fun r => r.call_id == c)
        else db).filter (fun r => strLe f r.timestamp)).filter (fun r => strLe r.timestamp t))
    exact List.Pairwise.sublist (List.take_sublist _ _) hs
  · exact List.length_take_le _ _

/-- Claim C8, witness: the range query theorem applied to a two-row store
with the spec's example window. -/
theorem c8_witness :
    (queryTranscripts dbW none (some "2024-01-01T00:00:00") (some "2024-01-01T23:59:59")
        50).length ≤ 50 :=
  (c8_range_query dbW none "2024-01-01T00:00:00" "2024-01-01T23:59:59"
    (by decide) (by decide) 50).2.2

/-- Claim C9: assuming the wall clock never runs backwards, every pipeline
run logs exactly two transcript-save operations before any flow-resolver
event: first the `asr`-tagged entry carrying the transcript text, then the
`llm`-tagged entry carrying the reply text, with lexicographically ascending
timestamps; both entries reach a store whenever one of the two transcript
storage paths works. -/
theorem c9_two_transcripts (env : Env) (p : Payload) (w : World) (clock : Nat → String)
    (t0 : Nat)
    (hmono : ∀ i j : Nat, i ≤ j → strLe (clock i) (clock j) = true) :
    ∃ e1 d1 e2 d2 rest,
      (processCall env p w clock t0).events
          = .savedTranscript e1 d1 :: .savedTranscript e2 d2 :: rest
      ∧ e1.source = "asr" ∧ e2.source = "llm"
      ∧ e1.text = asrTextOf env ∧ e2.text = (llmResOf env).reply.getD ""
      ∧ strLe e1.timestamp e2.timestamp = true
      ∧ (∀ f r, Event.flowRan f r ∈ (processCall env p w clock t0).events →
            Event.flowRan f r ∈ rest)
      ∧ ((env.transcriptsStoreOk = true ∨ env.sessionAppendOk = true) →
            d1 ≠ SaveDest.dropped ∧ d2 ≠ SaveDest.dropped) := by
  refine ⟨savedEntryOf env p.call_id (asrTextOf env) "asr" clock t0, saveDestOf env,
    savedEntryOf env p.call_id ((llmResOf env).reply.getD "") "llm" clock
      (saveNext env clock t0), saveDestOf env,
    (flowStage env (llmResOf env).intent ((llmResOf env).reply.getD "")
      ((llmResOf env).escalate.getD false)).events
      ++ [Event.patched p.call_id (processCall env p w clock t0).patch (patchDestOf env)],
    rfl, savedEntryOf_source _ _ _ _ _ _, savedEntryOf_source _ _ _ _ _ _,
    savedEntryOf_text _ _ _ _ _ _, savedEntryOf_text _ _ _ _ _ _, ?_, ?_, ?_⟩
  · obtain ⟨i, hi1, hi2, hts1⟩ :=
      savedEntryOf_timestamp env p.call_id (asrTextOf env) "asr" clock t0
    obtain ⟨j, hj1, hj2, hts2⟩ :=
      savedEntryOf_timestamp env p.call_id ((llmResOf env).reply.getD "") "llm" clock
        (saveNext env clock t0)
    rw [hts1, hts2]
    exact hmono i j (by omega)
  · intro f r hm
    have hev : (processCall env p w clock t0).events
        = Event.savedTranscript (savedEntryOf env p.call_id (asrTextOf env) "asr" clock t0)
            (saveDestOf env)
          :: Event.savedTranscript (savedEntryOf env p.call_id ((llmResOf env).reply.getD "")
              "llm" clock (saveNext env clock t0)) (saveDestOf env)
          :: ((flowStage env (llmResOf env).intent ((llmResOf env).reply.getD "")
              ((llmResOf env).escalate.getD false)).events
            ++ [Event.patched p.call_id (processCall env p w clock t0).patch
                  (patchDestOf env)]) := rfl
    rw [hev] at hm
    simp only [List.mem_cons] at hm
    rcases hm with hm | hm | hm
    · exact absurd hm (by simp)
    · exact absurd hm (by simp)
    · exact hm
  · intro h
    exact ⟨saveDestOf_not_dropped env h, saveDestOf_not_dropped env h⟩

/-- Claim C9, witness: the two-save theorem applied to a run with a working
transcripts store under the constant clock. -/
theorem c9_witness :
    ∃ e1 d1 e2 d2 rest,
      (processCall envTStore payload1 world0 clk0 0).events
          = .savedTranscript e1 d1 :: .savedTranscript e2 d2 :: rest
      ∧ e1.source = "asr" ∧ e2.source = "llm"
      ∧ e1.text = asrTextOf envTStore ∧ e2.text = (llmResOf envTStore).reply.getD ""
      ∧ strLe e1.timestamp e2.timestamp = true
      ∧ (∀ f r, Event.flowRan f r ∈ (processCall envTStore payload1 world0 clk0 0).events →
            Event.flowRan f r ∈ rest)
      ∧ ((envTStore.transcriptsStoreOk = true ∨ envTStore.sessionAppendOk = true) →
            d1 ≠ SaveDest.dropped ∧ d2 ≠ SaveDest.dropped) :=
  c9_two_transcripts envTStore payload1 world0 clk0 0
    (fun _ _ _ => by
      change strLe "2024-01-01T00:00:00" "2024-01-01T00:00:00" = true
      decide)

/-- Claim C10: the session store's patch operation shallow-merges — every
field of the stored session not named in the patch keeps its prior value;
when no session exists a record holding exactly the patch fields is created;
and the returned record is the stored one. -/
theorem c10_patch_merge {V : Type} (store : List (String × List (String × V))) (cid : String)
    (patch : List (String × V)) (hnd : (patch.map Prod.fst).Nodup) :
    (∀ k, k ∉ patch.map Prod.fst →
        dget (update_session store cid patch).1 k = dget ((dget store cid).getD []) k)
    ∧ (dget store cid = none → ∀ k, dget (update_session store cid patch).1 k = dget patch k)
    ∧ dget (update_session store cid patch).2 cid = some (update_session store cid patch).1 := by
  refine ⟨?_, ?_, ?_⟩
  · intro k hk
    unfold update_session
    simp only []
    rw [dget_dupdate _ _ _ hnd, dget_eq_none_of_not_mem patch k hk]
  · intro habs k
    unfold update_session
    simp only [habs, Option.getD_none]
    rw [dget_dupdate _ _ _ hnd]
    cases hp : dget patch k with
    | some v => rfl
    | none => simp [dget]
  · unfold update_session
    simp only []
    exact dget_dset_self _ _ _

/-- Claim C10, witness: the patch theorem applied to an empty store and a
one-field patch. -/
theorem c10_witness :
    dget (update_session ([] : List (String × List (String × Nat))) "call-1"
        [("status", 1)]).2 "call-1"
      = some (update_session ([] : List (String × List (String × Nat))) "call-1"
          [("status", 1)]).1 :=
  (c10_patch_merge ([] : List (String × List (String × Nat))) "call-1" [("status", 1)]
    (by simp)).2.2

end ConvoIVR
